import Mathlib

/-
Verification of the etcd client library (src/cpp/util/etcd.cc) against its
natural-language specification.  The definitions below are a shallow
embedding of the C++ source: each `def` mirrors one function (or the
relevant portion of one function) of the source file, keeping the source's
names, field names, check order and literal message strings.  Callback-based
completion is modelled by returning the argument tuples the code passes to
the callback; CHECK/CHECK_EQ/CHECK_LE/CHECK_NOTNULL failures are modelled as
a distinguished `abort` outcome.
-/

namespace Etcd

/-- JSON documents as seen through the repository's structured-document
wrappers (JsonObject/JsonInt/JsonString/JsonBoolean/JsonArray): typed field
lookup by key with an "ok" flag per lookup. -/
inductive Json where
  | jstr : String → Json
  | jint : Int → Json
  | jbool : Bool → Json
  | jarr : List Json → Json
  | jobj : List (String × Json) → Json
deriving Repr

/-- Raw field lookup inside an object (first binding wins, as in a JSON
object whose keys are unique). -/
def Json.find : Json → String → Option Json
  | .jobj fields, key => fields.lookup key
  | _, _ => none

/-- JsonObject(parent, field): ok iff the field is present and is an object. -/
def jsonObjectField (j : Json) (f : String) : Option Json :=
  match j.find f with
  | some (.jobj fs) => some (.jobj fs)
  | _ => none

/-- JsonInt(parent, field): ok iff the field is present and is an integer. -/
def jsonIntField (j : Json) (f : String) : Option Int :=
  match j.find f with
  | some (.jint n) => some n
  | _ => none

/-- JsonString(parent, field): ok iff the field is present and is a string. -/
def jsonStringField (j : Json) (f : String) : Option String :=
  match j.find f with
  | some (.jstr s) => some s
  | _ => none

/-- JsonBoolean(parent, field): ok iff the field is present and is a boolean. -/
def jsonBoolField (j : Json) (f : String) : Option Bool :=
  match j.find f with
  | some (.jbool b) => some b
  | _ => none

/-- JsonArray(parent, field): ok iff the field is present and is an array. -/
def jsonArrayField (j : Json) (f : String) : Option (List Json) :=
  match j.find f with
  | some (.jarr es) => some es
  | _ => none

/-- util::error codes used by this file. -/
inductive ErrorCode where
  | ok
  | cancelled
  | unknown
  | invalidArgument
  | failedPrecondition
  | notFound
  | permissionDenied
  | unavailable
deriving Repr, DecidableEq

/-- util::Status: an error code plus a message. -/
structure Status where
  code : ErrorCode
  message : String
deriving Repr, DecidableEq

/-- Status::OK. -/
def Status.OK : Status := ⟨ErrorCode.ok, ""⟩

/-- status.ok(). -/
def Status.isOk (s : Status) : Bool :=
  match s.code with
  | ErrorCode.ok => true
  | _ => false

/-- Shorthand for the FAILED_PRECONDITION statuses built throughout the
decoders. -/
def statusFP (msg : String) : Status :=
  ⟨ErrorCode.failedPrecondition, msg⟩

/-- ErrorCodeForHttpResponseCode (etcd.cc lines 71-87). -/
def ErrorCodeForHttpResponseCode (response_code : Int) : ErrorCode :=
  if response_code = 200 ∨ response_code = 201 then ErrorCode.ok
  else if response_code = 403 then ErrorCode.permissionDenied
  else if response_code = 404 then ErrorCode.notFound
  else if response_code = 412 then ErrorCode.failedPrecondition
  else if response_code = 500 then ErrorCode.unavailable
  else ErrorCode.unknown

/-- KeyIsDirectory (etcd.cc lines 90-92). -/
def KeyIsDirectory (key : String) : Bool :=
  key.length > 0 && key.back = '/'

/-- EtcdClient::Node (the four fields the decoders populate; expires_ is
always set to time_point::max() and deleted_ to false by the constructor
modelled here, so they are omitted). -/
structure Node where
  created_index : Int
  modified_index : Int
  key : String
  value : String
deriving Repr, DecidableEq

/-- kInvalidNode / EtcdClient::Node::InvalidNode(). -/
def Node.InvalidNode : Node := ⟨-1, -1, "", ""⟩

/-- EtcdClient::WatchUpdate: a node plus an exists flag. -/
structure WatchUpdate where
  node : Node
  exists_ : Bool
deriving Repr, DecidableEq

/-- EtcdClient::GenericResponse: decoded JSON body plus the store-assigned
etcd_index (-1 if unknown). -/
structure GenericResponse where
  etcd_index : Int
  json_body : Json
deriving Repr

/-- One invocation of a GetCallback: cb(status, node, index). -/
structure GetCall where
  status : Status
  node : Node
  index : Int
deriving Repr, DecidableEq

/-- GetRequestDone (etcd.cc lines 117-170): decodes a Get response and
returns the single callback invocation it performs. -/
def GetRequestDone (gen_resp : GenericResponse) (task_status : Status) : GetCall :=
  if !task_status.isOk then ⟨task_status, Node.InvalidNode, -1⟩
  else
    match jsonObjectField gen_resp.json_body "node" with
    | none => ⟨statusFP "Invalid JSON: Couldn't find 'node'", Node.InvalidNode, -1⟩
    | some node =>
      match jsonIntField node "createdIndex" with
      | none => ⟨statusFP "Invalid JSON: Couldn't find 'createdIndex'", Node.InvalidNode, -1⟩
      | some createdIndex =>
        match jsonIntField node "modifiedIndex" with
        | none => ⟨statusFP "Invalid JSON: Couldn't find 'modifiedIndex'", Node.InvalidNode, -1⟩
        | some modifiedIndex =>
          match jsonStringField node "key" with
          | none => ⟨statusFP "Invalid JSON: Couldn't find 'key'", Node.InvalidNode, -1⟩
          | some key =>
            match jsonStringField node "value" with
            | none => ⟨statusFP "Invalid JSON: Couldn't find 'value'", Node.InvalidNode, -1⟩
            | some value =>
              ⟨Status.OK, ⟨createdIndex, modifiedIndex, key, value⟩, gen_resp.etcd_index⟩

/-- One invocation of a GetAllCallback: cb(status, nodes, index). -/
structure GetAllCall where
  status : Status
  nodes : List Node
  index : Int
deriving Repr, DecidableEq

/-- The child-decoding loop of GetAllRequestDone (etcd.cc lines 210-256):
each element must be an object carrying value, createdIndex, modifiedIndex
and key (checked in that order); any failure aborts the whole call with
that failure and an empty vector. `i` is the loop index used in the
error message. -/
def decodeEntries (i : Nat) : List Json → Except Status (List Node)
  | [] => .ok []
  | e :: rest =>
    match e with
    | Json.jobj _ =>
      (match jsonStringField e "value" with
       | none => .error (statusFP "Invalid JSON: Couldn't find 'value'")
       | some value =>
         match jsonIntField e "createdIndex" with
         | none => .error (statusFP "Invalid JSON: Coulnd't find 'createdIndex'")
         | some createdIndex =>
           match jsonIntField e "modifiedIndex" with
           | none => .error (statusFP "Invalid JSON: Coulnd't find 'modifiedIndex'")
           | some modifiedIndex =>
             match jsonStringField e "key" with
             | none => .error (statusFP "Invalid JSON: Couldn't find 'key'")
             | some key =>
               match decodeEntries (i + 1) rest with
               | .error s => .error s
               | .ok ns => .ok (Node.mk createdIndex modifiedIndex key value :: ns))
    | _ =>
      .error (statusFP ("Invalid JSON: Couldn't get 'value_nodes' index " ++ toString i))

/-- GetAllRequestDone (etcd.cc lines 173-259): decodes a GetAll response and
returns the LIST of callback invocations it performs, in order.  The two
`dir` checks (lines 191-201) are missing `return` statements, so after
either fires control still falls through to the `nodes` handling; a failed
JsonBoolean lookup reads its Value() as false (json-c returns 0 for a null
object), so a missing/ill-typed `dir` fires both checks. -/
def GetAllRequestDone (gen_resp : GenericResponse) (task_status : Status) :
    List GetAllCall :=
  if !task_status.isOk then [⟨task_status, [], -1⟩]
  else
    match jsonObjectField gen_resp.json_body "node" with
    | none => [⟨statusFP "Invalid JSON: Couldn't find 'node'", [], -1⟩]
    | some node =>
      let isDir : Option Bool := jsonBoolField node "dir"
      let dirCalls : List GetAllCall :=
        (if isDir.isNone then
          [⟨statusFP "Invalid JSON: Couldn't find 'dir'", [], -1⟩]
         else []) ++
        (if !(isDir.getD false) then
          [⟨⟨ErrorCode.invalidArgument, "Not a directory"⟩, [], -1⟩]
         else [])
      dirCalls ++
      match jsonArrayField node "nodes" with
      | none =>
        -- Directory is empty.
        [⟨Status.OK, [], -1⟩]
      | some value_nodes =>
        match decodeEntries 0 value_nodes with
        | .error s => [⟨s, [], -1⟩]
        | .ok values => [⟨Status.OK, values, gen_resp.etcd_index⟩]

/-- Outcome of CreateRequestDone: either one callback invocation
cb(status, index), or a CHECK_EQ abort. -/
inductive CreateOutcome where
  | callback : Status → Int → CreateOutcome
  | abort : CreateOutcome
deriving Repr, DecidableEq

/-- CreateRequestDone (etcd.cc lines 262-298).  CHECK_EQ(createdIndex,
modifiedIndex) aborts the process when the two differ. -/
def CreateRequestDone (gen_resp : GenericResponse) (task_status : Status) :
    CreateOutcome :=
  if !task_status.isOk then .callback task_status (-1)
  else
    match jsonObjectField gen_resp.json_body "node" with
    | none => .callback (statusFP "Invalid JSON: Couldn't find 'node'") 0
    | some node =>
      match jsonIntField node "createdIndex" with
      | none => .callback (statusFP "Invalid JSON: Couldn't find 'createdIndex'") 0
      | some createdIndex =>
        match jsonIntField node "modifiedIndex" with
        | none => .callback (statusFP "Invalid JSON: Couldn't find 'modifiedIndex'") 0
        | some modifiedIndex =>
          if createdIndex = modifiedIndex then .callback Status.OK modifiedIndex
          else .abort

/-- Outcome of CreateInQueueRequestDone: either one callback invocation
cb(status, key, index), or a CHECK_EQ abort. -/
inductive CreateInQueueOutcome where
  | callback : Status → String → Int → CreateInQueueOutcome
  | abort : CreateInQueueOutcome
deriving Repr, DecidableEq

/-- CreateInQueueRequestDone (etcd.cc lines 301-346). -/
def CreateInQueueRequestDone (gen_resp : GenericResponse)
    (task_status : Status) : CreateInQueueOutcome :=
  if !task_status.isOk then .callback task_status "" (-1)
  else
    match jsonObjectField gen_resp.json_body "node" with
    | none => .callback (statusFP "Invalid JSON: Couldn't find 'node'") "" 0
    | some node =>
      match jsonIntField node "createdIndex" with
      | none => .callback (statusFP "Invalid JSON: Couldn't find 'createdIndex'") "" 0
      | some createdIndex =>
        match jsonIntField node "modifiedIndex" with
        | none => .callback (statusFP "Invalid JSON: Couldn't find 'modifiedIndex'") "" 0
        | some modifiedIndex =>
          match jsonStringField node "key" with
          | none => .callback (statusFP "Invalid JSON: Couldn't find 'key'") "" 0
          | some key =>
            if createdIndex = modifiedIndex then .callback Status.OK key modifiedIndex
            else .abort

/-- UpdateForNode (etcd.cc lines 614-648): builds the WatchUpdate for one
watch node object.  A present `value` yields exists=true with that value; an
absent `value` yields exists=false with an empty value. -/
def UpdateForNode (node : Json) : Except Status WatchUpdate :=
  match jsonIntField node "createdIndex" with
  | none => .error (statusFP "Invalid JSON: Couldn't find 'createdIndex'")
  | some createdIndex =>
    match jsonIntField node "modifiedIndex" with
    | none => .error (statusFP "Invalid JSON: Couldn't find 'modifiedIndex'")
    | some modifiedIndex =>
      match jsonStringField node "key" with
      | none => .error (statusFP "Invalid JSON: Couldn't find 'key'")
      | some key =>
        match jsonStringField node "value" with
        | some value =>
          .ok ⟨⟨createdIndex, modifiedIndex, key, value⟩, true⟩
        | none =>
          .ok ⟨⟨createdIndex, modifiedIndex, key, ""⟩, false⟩

/-- Whether UpdateForNode fails on the given node (the condition under which
HandleSingleValueRequestDone returns a non-OK status). -/
def updateForNodeFailed (node : Json) : Bool :=
  match UpdateForNode node with
  | .error _ => true
  | .ok _ => false

/-- Outcome of EtcdClient::WatchState::RequestDone. -/
inductive WatchOutcome where
  /-- CHECK_LE(highest_index_seen_, gen_resp->etcd_index) failed. -/
  | abort : WatchOutcome
  /-- task_->Return(Status::CANCELLED). -/
  | cancelled : WatchOutcome
  /-- SendUpdates(updates) scheduled on the executor; after the callback
  returns, SendUpdates calls StartRequest. -/
  | deliver : List WatchUpdate → WatchOutcome
  /-- goto fail: a StartRequest child is scheduled after the configured
  retry delay (FLAGS_etcd_watch_error_retry_delay_seconds). -/
  | retryAfterDelay : WatchOutcome
deriving Repr, DecidableEq

/-- EtcdClient::WatchState::RequestDone (etcd.cc lines 663-722), as a
transition on highest_index_seen_.  Returns the outcome together with the
value of highest_index_seen_ after the call.  Note the order of operations
in the source: the CHECK_LE and the update of highest_index_seen_ come
before the cancellation check, which comes before the status check and the
body decoding. -/
def watchRequestDone (highest_index_seen : Int) (gen_resp : GenericResponse)
    (task_status : Status) (cancelRequested : Bool) : WatchOutcome × Int :=
  if gen_resp.etcd_index < highest_index_seen then
    (.abort, highest_index_seen)
  else
    let highest := gen_resp.etcd_index
    if cancelRequested then (.cancelled, highest)
    else if !task_status.isOk then (.retryAfterDelay, highest)
    else
      match jsonObjectField gen_resp.json_body "node" with
      | none => (.retryAfterDelay, highest)
      | some node =>
        match UpdateForNode node with
        | .error _ => (.retryAfterDelay, highest)
        | .ok u => (.deliver [u], highest)

/-- Parameter maps (std::map<string, string>), modelled as association
lists with std::map operator[] semantics (replace the binding if the key is
present, append otherwise); key order is irrelevant to the properties
proved here. -/
def Params := List (String × String)

/-- map[k] = v. -/
def mapSet : List (String × String) → String → String → List (String × String)
  | [], k, v => [(k, v)]
  | (k', v') :: rest, k, v =>
    if k' = k then (k, v) :: rest else (k', v') :: mapSet rest k v

/-- map.find(k) != map.end(). -/
def mapContains : List (String × String) → String → Bool
  | [], _ => false
  | (k', _) :: rest, k => k' = k || mapContains rest k

/-- EtcdClient::WatchState::StartRequest (etcd.cc lines 734-749): checks
cancellation (none = task returned CANCELLED, no request issued), otherwise
issues a poll whose parameters are wait=true,
waitIndex=highest_index_seen_+1, recursive=true. -/
def watchStartRequest (highest_index_seen : Int) (cancelRequested : Bool) :
    Option (List (String × String)) :=
  if cancelRequested then none
  else
    some (mapSet (mapSet (mapSet [] "wait" "true")
          "waitIndex" (toString (highest_index_seen + 1)))
          "recursive" "true")

/-- The successive values of highest_index_seen_ as the watch processes a
sequence of long-poll completions, each with task status OK and no
cancellation request (the "processed responses" of the spec). -/
def watchPollHighs (highest_index_seen : Int) :
    List GenericResponse → List Int
  | [] => []
  | r :: rs =>
    let h := (watchRequestDone highest_index_seen r Status.OK false).2
    h :: watchPollHighs h rs

/-- The (GenericResponse, task status) pair produced by
EtcdClient::RequestDone (etcd.cc lines 838-845) when the transport returns
a null response: etcd_index is set to -1, json_body is nulled (never read,
since every decoder returns before touching the body when the status is not
OK; modelled as an empty document), and the task completes with UNKNOWN. -/
def transportFailureResult : GenericResponse × Status :=
  (⟨-1, Json.jobj []⟩,
   ⟨ErrorCode.unknown, "evhttp request callback returned a null"⟩)

/-- The parameter-injection portion of EtcdClient::Generic (etcd.cc lines
1029-1042): copies the caller's parameters, adds consistent=true when
FLAGS_etcd_consistent is set, and adds quorum=true when FLAGS_etcd_quorum
is set and the map does not already contain the key "wait". -/
def Generic_modified_params (params : List (String × String))
    (flag_etcd_consistent flag_etcd_quorum : Bool) :
    List (String × String) :=
  let m1 := if flag_etcd_consistent then mapSet params "consistent" "true"
            else params
  if flag_etcd_quorum then
    (if mapContains m1 "wait" then m1 else mapSet m1 "quorum" "true")
  else m1

/-- Outcome of EtcdClient::MaybeUpdateLeader (etcd.cc lines 806-828),
as a function of the response code and the presence of the "location"
header. -/
inductive RedirectOutcome where
  /-- Not a 307: returns false, normal processing continues. -/
  | notRedirect : RedirectOutcome
  /-- CHECK_NOTNULL(evhttp_find_header(..., "location")) failed. -/
  | abort : RedirectOutcome
  /-- UpdateLeader is called with the host:port parsed from the location
  header and the same Request object is re-run against the new leader
  (the caller's task is not resolved). -/
  | retryOnNewLeader : String → RedirectOutcome
deriving Repr, DecidableEq

/-- EtcdClient::MaybeUpdateLeader (etcd.cc lines 806-828).  The subsequent
evhttp_uri_parse of the header value is outside this model; the outcome
carries the raw header value. -/
def MaybeUpdateLeader (responseCode : Int) (locationHeader : Option String) :
    RedirectOutcome :=
  if responseCode ≠ 307 then .notRedirect
  else
    match locationHeader with
    | none => .abort
    | some location => .retryOnNewLeader location

/-- The store-contract invariant on one JSON node object: whenever both
createdIndex and modifiedIndex are present, createdIndex <= modifiedIndex.
This is the spec's store-side invariant, stated so it can be used as a
hypothesis; the code itself performs no such validation. -/
def jsonNodeOrdered (node : Json) : Bool :=
  match jsonIntField node "createdIndex",
        jsonIntField node "modifiedIndex" with
  | some ci, some mi => decide (ci ≤ mi)
  | _, _ => true

/-- The store-contract invariant on a whole response body: the 'node'
object and each element of its 'nodes' array are ordered. -/
def bodyNodesOrdered (body : Json) : Bool :=
  match jsonObjectField body "node" with
  | none => true
  | some node =>
    jsonNodeOrdered node &&
    (match jsonArrayField node "nodes" with
     | none => true
     | some es => es.all jsonNodeOrdered)

/- Helper lemmas about the parameter-map model. -/

theorem mem_mapSet_self (ps : List (String × String)) (k v : String) :
    (k, v) ∈ mapSet ps k v := by
  induction ps with
  | nil => simp [mapSet]
  | cons p rest ih =>
    obtain ⟨k', v'⟩ := p
    by_cases h : k' = k <;> simp [mapSet, h, ih]

theorem mem_mapSet_of_ne {ps : List (String × String)} {a b k v : String}
    (hm : (a, b) ∈ ps) (hne : a ≠ k) : (a, b) ∈ mapSet ps k v := by
  induction ps with
  | nil => simp at hm
  | cons p rest ih =>
    obtain ⟨k', v'⟩ := p
    rcases List.mem_cons.mp hm with h | h
    · have hk : k' ≠ k := by
        rw [show k' = a from (Prod.mk.injEq _ _ _ _ ▸ h.symm).1]
        exact hne
      simp [mapSet, hk, h.symm]
    · by_cases hk : k' = k
      · simp only [mapSet, if_pos hk]
        exact List.mem_cons_of_mem _ h
      · simp only [mapSet, if_neg hk]
        exact List.mem_cons_of_mem _ (ih h)

theorem mem_of_mem_mapSet_ne {ps : List (String × String)} {a b k v : String}
    (hm : (a, b) ∈ mapSet ps k v) (hne : a ≠ k) : (a, b) ∈ ps := by
  induction ps with
  | nil =>
    simp [mapSet] at hm
    exact absurd hm.1 hne
  | cons p rest ih =>
    obtain ⟨k', v'⟩ := p
    by_cases hk : k' = k
    · simp [mapSet, hk] at hm
      rcases hm with h | h
      · exact absurd h.1 hne
      · exact List.mem_cons_of_mem _ h
    · simp [mapSet, hk] at hm
      rcases hm with h | h
      · exact List.mem_cons.mpr (Or.inl (by simp [h]))
      · exact List.mem_cons_of_mem _ (ih h)

theorem mapContains_of_mem {ps : List (String × String)} {k v : String}
    (hm : (k, v) ∈ ps) : mapContains ps k = true := by
  induction ps with
  | nil => simp at hm
  | cons p rest ih =>
    obtain ⟨k', v'⟩ := p
    rcases List.mem_cons.mp hm with h | h
    · simp [mapContains, (Prod.mk.injEq _ _ _ _ ▸ h.symm).1]
    · simp [mapContains, ih h]

theorem mapContains_mapSet_ne {ps : List (String × String)} {k k' v : String}
    (hne : k' ≠ k) : mapContains (mapSet ps k' v) k = mapContains ps k := by
  induction ps with
  | nil => simp [mapSet, mapContains, hne]
  | cons p rest ih =>
    obtain ⟨a, b⟩ := p
    by_cases ha : a = k' <;> simp [mapSet, ha, mapContains, ih, hne]

/- Helper lemmas about the watch state machine. -/

theorem watchRequestDone_snd (h : Int) (r : GenericResponse) (ts : Status)
    (cr : Bool) (hle : h ≤ r.etcd_index) :
    (watchRequestDone h r ts cr).2 = r.etcd_index := by
  unfold watchRequestDone
  rw [if_neg (not_lt.mpr hle)]
  repeat' split
  all_goals rfl

theorem watchStartRequest_params (h : Int) :
    watchStartRequest h false =
      some [("wait", "true"), ("waitIndex", toString (h + 1)),
            ("recursive", "true")] := rfl

/-- Membership in a conditional singleton list pins down the element. -/
theorem mem_ite_singleton {α : Type} {c x : α} {p : Prop} [Decidable p]
    (hc : c ∈ (if p then [x] else [])) : c = x := by
  split at hc <;> simp_all

/-- Every node list produced by a successful decodeEntries run is ordered,
provided every entry of the array satisfies the store-contract invariant. -/
theorem decodeEntries_ordered (es : List Json) :
    ∀ (i : Nat) (vs : List Node),
      es.all jsonNodeOrdered = true →
      decodeEntries i es = Except.ok vs →
      ∀ n ∈ vs, n.created_index ≤ n.modified_index := by
  induction es with
  | nil =>
    intro i vs _ hdec n hn
    simp [decodeEntries] at hdec
    subst hdec
    simp at hn
  | cons e rest ih =>
    intro i vs hall hdec n hn
    rw [List.all_cons, Bool.and_eq_true] at hall
    obtain ⟨he, hrest⟩ := hall
    cases e with
    | jobj fs =>
      cases hv : jsonStringField (Json.jobj fs) "value" with
      | none => simp [decodeEntries, hv] at hdec
      | some v =>
        cases hci : jsonIntField (Json.jobj fs) "createdIndex" with
        | none => simp [decodeEntries, hv, hci] at hdec
        | some ci =>
          cases hmi : jsonIntField (Json.jobj fs) "modifiedIndex" with
          | none => simp [decodeEntries, hv, hci, hmi] at hdec
          | some mi =>
            cases hk : jsonStringField (Json.jobj fs) "key" with
            | none => simp [decodeEntries, hv, hci, hmi, hk] at hdec
            | some k =>
              cases hrec : decodeEntries (i + 1) rest with
              | error s => simp [decodeEntries, hv, hci, hmi, hk, hrec] at hdec
              | ok ns =>
                simp only [decodeEntries, hv, hci, hmi, hk, hrec,
                  Except.ok.injEq] at hdec
                rw [← hdec] at hn
                rcases List.mem_cons.mp hn with h | h
                · rw [h]
                  simp only [jsonNodeOrdered, hci, hmi] at he
                  exact of_decide_eq_true he
                · exact ih (i + 1) ns hrest hrec n h
    | jstr s => simp [decodeEntries] at hdec
    | jint m => simp [decodeEntries] at hdec
    | jbool b => simp [decodeEntries] at hdec
    | jarr xs => simp [decodeEntries] at hdec

/-- Every callback invocation of GetAllRequestDone carries either an empty
node list or the successfully decoded 'nodes' array of the response. -/
theorem getAll_call_nodes (r : GenericResponse) (ts : Status)
    (c : GetAllCall) (hc : c ∈ GetAllRequestDone r ts) :
    c.nodes = [] ∨
    ∃ node es, jsonObjectField r.json_body "node" = some node ∧
      jsonArrayField node "nodes" = some es ∧
      decodeEntries 0 es = Except.ok c.nodes := by
  by_cases hts : ts.isOk
  · cases hn : jsonObjectField r.json_body "node" with
    | none =>
      simp [GetAllRequestDone, hts, hn] at hc
      exact Or.inl (by simp [hc])
    | some node =>
      cases hes : jsonArrayField node "nodes" with
      | none =>
        cases hd : jsonBoolField node "dir" with
        | none =>
          simp [GetAllRequestDone, hts, hn, hes, hd] at hc
          rcases hc with hc | hc | hc <;> exact Or.inl (by simp [hc])
        | some b =>
          cases b
          · simp [GetAllRequestDone, hts, hn, hes, hd] at hc
            rcases hc with hc | hc <;> exact Or.inl (by simp [hc])
          · simp [GetAllRequestDone, hts, hn, hes, hd] at hc
            exact Or.inl (by simp [hc])
      | some es =>
        cases hdec : decodeEntries 0 es with
        | error s =>
          cases hd : jsonBoolField node "dir" with
          | none =>
            simp [GetAllRequestDone, hts, hn, hes, hd, hdec] at hc
            rcases hc with hc | hc | hc <;> exact Or.inl (by simp [hc])
          | some b =>
            cases b
            · simp [GetAllRequestDone, hts, hn, hes, hd, hdec] at hc
              rcases hc with hc | hc <;> exact Or.inl (by simp [hc])
            · simp [GetAllRequestDone, hts, hn, hes, hd, hdec] at hc
              exact Or.inl (by simp [hc])
        | ok values =>
          cases hd : jsonBoolField node "dir" with
          | none =>
            simp [GetAllRequestDone, hts, hn, hes, hd, hdec] at hc
            rcases hc with hc | hc | hc
            · exact Or.inl (by simp [hc])
            · exact Or.inl (by simp [hc])
            · refine Or.inr ⟨node, es, rfl, hes, ?_⟩
              rw [hc, hdec]
          | some b =>
            cases b
            · simp [GetAllRequestDone, hts, hn, hes, hd, hdec] at hc
              rcases hc with hc | hc
              · exact Or.inl (by simp [hc])
              · refine Or.inr ⟨node, es, rfl, hes, ?_⟩
                rw [hc, hdec]
            · simp [GetAllRequestDone, hts, hn, hes, hd, hdec] at hc
              refine Or.inr ⟨node, es, rfl, hes, ?_⟩
              rw [hc, hdec]
  · simp [GetAllRequestDone, hts] at hc
    exact Or.inl (by simp [hc])

/-- Claim C1: the spec requires that a GetAll response whose node has
dir=false yields exactly one callback invocation, with INVALID_ARGUMENT
("not a directory") and no further OK completion.  The code is missing the
`return` statements after its two dir checks (etcd.cc lines 191-201), so it
falls through: at the failing input below (task status OK, body
{node: {dir: false}}) the callback is invoked twice, first with
INVALID_ARGUMENT and then again with OK, an empty list and index -1. -/
theorem getAll_dir_false_double_callback :
    GetAllRequestDone
        ⟨7, Json.jobj [("node", Json.jobj [("dir", Json.jbool false)])]⟩
        Status.OK =
      [⟨⟨ErrorCode.invalidArgument, "Not a directory"⟩, [], -1⟩,
       ⟨Status.OK, [], -1⟩] := by decide

/-- Claim C9: EtcdClient::WatchState::RequestDone runs
CHECK_LE(highest_index_seen_, gen_resp->etcd_index) before looking at the
poll's status or at cancellation, so every completion whose etcd_index is
below the current highest_index_seen_ aborts the process, for every task
status and cancellation state; and a transport-level failure produces
exactly such a completion, with etcd_index = -1 and a non-OK status. -/
theorem watch_stale_index_aborts :
    (∀ (h : Int) (r : GenericResponse) (ts : Status) (cr : Bool),
      r.etcd_index < h →
      watchRequestDone h r ts cr = (WatchOutcome.abort, h)) ∧
    transportFailureResult.1.etcd_index = -1 ∧
    transportFailureResult.2.isOk = false := by
  refine ⟨fun h r ts cr hlt => ?_, rfl, rfl⟩
  unfold watchRequestDone
  rw [if_pos hlt]

/-- Witness for C9: after an earlier successful poll has set
highest_index_seen_ to 5, a transport-level failure (etcd_index = -1)
aborts instead of reaching the retry or cancellation paths. -/
theorem watch_stale_index_aborts_witness :
    watchRequestDone 5 transportFailureResult.1 transportFailureResult.2
        false = (WatchOutcome.abort, 5) :=
  watch_stale_index_aborts.1 5 transportFailureResult.1
    transportFailureResult.2 false (by decide)

/-- Counterexample for claim C2: the claim says a failed long-poll is
retried with the same waitIndex as the failed attempt.  With
highest_index_seen_ = 2 the failed attempt was issued with waitIndex 3, but
a failed completion carrying etcd_index 7 (e.g. an HTTP 500 whose
X-Etcd-Index header reads 7) updates highest_index_seen_ to 7 before the
status check, so the retry is issued with waitIndex 8, not 3. -/
theorem watch_retry_waitIndex_counterexample :
    watchRequestDone 2 ⟨7, Json.jobj []⟩
        ⟨ErrorCodeForHttpResponseCode 500, "Watch request failed"⟩ false =
      (WatchOutcome.retryAfterDelay, 7) ∧
    watchStartRequest 7 false =
      some [("wait", "true"), ("waitIndex", "8"), ("recursive", "true")] ∧
    ¬ (("waitIndex", "3") ∈
        [(("wait" : String), ("true" : String)), ("waitIndex", "8"),
         ("recursive", "true")]) := by decide

/-- Claim C2 as amended: on a failed or malformed long-poll completion
(task status not OK, body without a 'node', or a failing single-node
decode), no update is delivered — the outcome is the delayed-retry path —
and the retry poll is issued with waitIndex = (response's etcd_index) + 1;
because highest_index_seen_ is updated from the response before the status
check, this equals the failed attempt's waitIndex exactly when the
response's etcd_index equals the previous highest_index_seen_. -/
theorem watch_failed_poll_retries :
    ∀ (h : Int) (r : GenericResponse) (ts : Status),
      h ≤ r.etcd_index →
      (ts.isOk = false ∨ jsonObjectField r.json_body "node" = none ∨
        ∃ node, jsonObjectField r.json_body "node" = some node ∧
          updateForNodeFailed node = true) →
      watchRequestDone h r ts false =
        (WatchOutcome.retryAfterDelay, r.etcd_index) ∧
      watchStartRequest r.etcd_index false =
        some [("wait", "true"), ("waitIndex", toString (r.etcd_index + 1)),
              ("recursive", "true")] := by
  intro h r ts hle hbad
  have hnl : ¬ r.etcd_index < h := not_lt.mpr hle
  refine ⟨?_, watchStartRequest_params _⟩
  rcases hbad with hts | hn | ⟨node, hn, hf⟩
  · simp [watchRequestDone, hnl, hts]
  · cases hts : ts.isOk
    · simp [watchRequestDone, hnl, hts]
    · simp [watchRequestDone, hnl, hts, hn]
  · cases hu : UpdateForNode node
    · cases hts : ts.isOk
      · simp [watchRequestDone, hnl, hts]
      · simp [watchRequestDone, hnl, hts, hn, hu]
    · rw [updateForNodeFailed, hu] at hf
      exact absurd hf (by simp)

/-- Witness for C2: a 500 completion whose etcd_index equals the previous
highest_index_seen_ (2) is retried with waitIndex 3. -/
theorem watch_failed_poll_retries_witness :
    watchRequestDone 2 ⟨2, Json.jobj []⟩
        ⟨ErrorCodeForHttpResponseCode 500, "Watch request failed"⟩ false =
      (WatchOutcome.retryAfterDelay, 2) ∧
    watchStartRequest 2 false =
      some [("wait", "true"), ("waitIndex", toString ((2 : Int) + 1)),
            ("recursive", "true")] :=
  watch_failed_poll_retries 2 ⟨2, Json.jobj []⟩
    ⟨ErrorCodeForHttpResponseCode 500, "Watch request failed"⟩
    (by decide) (Or.inl (by decide))

/-- The highest_index_seen_ trace equals the responses' etcd_index trace
whenever the indices are strictly increasing from the starting point. -/
theorem watchPollHighs_eq_map (rs : List GenericResponse) :
    ∀ h0 : Int,
      List.Chain (· < ·) h0 (rs.map GenericResponse.etcd_index) →
      watchPollHighs h0 rs = rs.map GenericResponse.etcd_index := by
  induction rs with
  | nil => intro h0 _; rfl
  | cons r rest ih =>
    intro h0 hchain
    rw [List.map_cons, List.chain_cons] at hchain
    obtain ⟨hlt, hch⟩ := hchain
    have hsnd := watchRequestDone_snd h0 r Status.OK false (le_of_lt hlt)
    simp only [watchPollHighs, List.map_cons]
    rw [hsnd, ih _ hch]

/-- Claim C3: over a sequence of processed long-poll completions with
strictly increasing store indices, highest_index_seen_ after each
completion equals that completion's etcd_index, and every successive poll
is issued with wait=true, recursive=true and
waitIndex = highest_index_seen_ + 1. -/
theorem watch_highest_index_tracks_responses :
    ∀ (h0 : Int) (rs : List GenericResponse),
      List.Chain (· < ·) h0 (rs.map GenericResponse.etcd_index) →
      watchPollHighs h0 rs = rs.map GenericResponse.etcd_index ∧
      ∀ h ∈ watchPollHighs h0 rs,
        watchStartRequest h false =
          some [("wait", "true"), ("waitIndex", toString (h + 1)),
                ("recursive", "true")] :=
  fun h0 rs hchain =>
    ⟨watchPollHighs_eq_map rs h0 hchain, fun h _ => watchStartRequest_params h⟩

/-- Witness for C3: starting from highest_index_seen_ = -1, processing
responses with indices 3 then 5 leaves the trace [3, 5]. -/
theorem watch_highest_index_tracks_responses_witness :
    watchPollHighs (-1) [⟨3, Json.jobj []⟩, ⟨5, Json.jobj []⟩] = [3, 5] :=
  (watch_highest_index_tracks_responses (-1)
    [⟨3, Json.jobj []⟩, ⟨5, Json.jobj []⟩]
    (List.Chain.cons (by decide)
      (List.Chain.cons (by decide) List.Chain.nil))).1

/-- Counterexample for claim C4: the claim says the empty-directory GetAll
path reports the response's store index unchanged, but at etcd_index = 42
the single OK callback carries index -1. -/
theorem getAll_empty_dir_index_counterexample :
    GetAllRequestDone
        ⟨42, Json.jobj [("node", Json.jobj [("dir", Json.jbool true)])]⟩
        Status.OK = [⟨Status.OK, [], -1⟩] ∧
    (GenericResponse.mk 42
        (Json.jobj [("node", Json.jobj [("dir", Json.jbool true)])])).etcd_index
      ≠ -1 := by decide

/-- Claim C4 as amended: for a successful GetAll response whose node is a
directory (dir=true) with no 'nodes' field, the callback is invoked exactly
once, with status OK, an empty node list, and index -1 (the empty-directory
path at etcd.cc line 206 reports -1, not the response's etcd_index). -/
theorem getAll_empty_dir_ok_minus_one :
    ∀ (r : GenericResponse) (ts : Status) (node : Json),
      ts.isOk = true →
      jsonObjectField r.json_body "node" = some node →
      jsonBoolField node "dir" = some true →
      jsonArrayField node "nodes" = none →
      GetAllRequestDone r ts = [⟨Status.OK, [], -1⟩] := by
  intro r ts node hts hn hd hns
  simp [GetAllRequestDone, hts, hn, hd, hns]

/-- Witness for C4: the amended statement evaluated on a concrete empty
directory response with etcd_index = 42. -/
theorem getAll_empty_dir_ok_minus_one_witness :
    GetAllRequestDone
        ⟨42, Json.jobj [("node", Json.jobj [("dir", Json.jbool true)])]⟩
        Status.OK = [⟨Status.OK, [], -1⟩] :=
  getAll_empty_dir_ok_minus_one
    ⟨42, Json.jobj [("node", Json.jobj [("dir", Json.jbool true)])]⟩
    Status.OK (Json.jobj [("dir", Json.jbool true)]) rfl rfl rfl rfl

/-- Counterexample for claim C5: the claim says the issued parameter set
contains quorum=true iff the caller's map P lacks the key "wait".  With
P = [(quorum, true), (wait, true)] the caller's own quorum entry is
preserved, so the issued set contains quorum=true even though P contains
"wait". -/
theorem generic_quorum_iff_counterexample :
    ¬ (((("quorum" : String), ("true" : String)) ∈
          Generic_modified_params [("quorum", "true"), ("wait", "true")]
            true true) ↔
        mapContains [(("quorum" : String), ("true" : String)),
          ("wait", "true")] "wait" = false) := by decide

/-- Claim C5 as amended: for a caller parameter map P that does not already
contain the key "quorum" (as at every call site in the file), with both
flags enabled the issued set contains consistent=true, contains quorum=true
iff P lacks the key "wait", and preserves every entry of P whose key is not
"consistent". -/
theorem generic_params_injection :
    ∀ P : List (String × String),
      mapContains P "quorum" = false →
      (("consistent", "true") ∈ Generic_modified_params P true true) ∧
      (((("quorum" : String), ("true" : String)) ∈
          Generic_modified_params P true true) ↔
        mapContains P "wait" = false) ∧
      ∀ kv ∈ P, kv.1 ≠ "consistent" →
        kv ∈ Generic_modified_params P true true := by
  intro P hq
  have hwait : mapContains (mapSet P "consistent" "true") "wait" =
      mapContains P "wait" := mapContains_mapSet_ne (by decide)
  unfold Generic_modified_params
  simp only [if_pos trivial, hwait]
  by_cases hw : mapContains P "wait" = true
  · rw [if_pos hw]
    simp only [hw]
    refine ⟨mem_mapSet_self P "consistent" "true", ?_, ?_⟩
    · constructor
      · intro hmem
        have : (("quorum" : String), ("true" : String)) ∈ P :=
          mem_of_mem_mapSet_ne hmem (by decide)
        rw [mapContains_of_mem this] at hq
        exact absurd hq (by decide)
      · intro hfalse
        exact absurd hfalse (by decide)
    · intro kv hkv hne
      obtain ⟨a, b⟩ := kv
      exact mem_mapSet_of_ne hkv hne
  · rw [if_neg hw]
    rw [Bool.not_eq_true] at hw
    simp only [hw]
    refine ⟨?_, ?_, ?_⟩
    · exact mem_mapSet_of_ne (mem_mapSet_self P "consistent" "true")
        (by decide)
    · simp [mem_mapSet_self]
    · intro kv hkv hne
      obtain ⟨a, b⟩ := kv
      have haq : a ≠ "quorum" := by
        intro heq
        rw [heq] at hkv
        rw [mapContains_of_mem hkv] at hq
        exact absurd hq (by decide)
      exact mem_mapSet_of_ne (mem_mapSet_of_ne hkv hne) haq

/-- Witness for C5: with P = [(wait, true), (foo, bar)] the issued set
contains consistent=true and does not contain quorum=true (since P contains
"wait"). -/
theorem generic_params_injection_witness :
    (("consistent", "true") ∈
      Generic_modified_params [("wait", "true"), ("foo", "bar")] true true) ∧
    (((("quorum" : String), ("true" : String)) ∈
        Generic_modified_params [("wait", "true"), ("foo", "bar")]
          true true) ↔
      mapContains [(("wait" : String), ("true" : String)), ("foo", "bar")]
        "wait" = false) :=
  ⟨(generic_params_injection [("wait", "true"), ("foo", "bar")]
      (by decide)).1,
   (generic_params_injection [("wait", "true"), ("foo", "bar")]
      (by decide)).2.1⟩

/-- Claim C6: for a watch node object carrying createdIndex, modifiedIndex
and key, UpdateForNode yields exists=false with an empty value (but the
node's key and indices) when the node has no 'value' field, and exists=true
carrying the value when it does. -/
theorem updateForNode_exists_flag :
    ∀ (node : Json) (ci mi : Int) (k : String),
      jsonIntField node "createdIndex" = some ci →
      jsonIntField node "modifiedIndex" = some mi →
      jsonStringField node "key" = some k →
      (jsonStringField node "value" = none →
        UpdateForNode node = Except.ok ⟨⟨ci, mi, k, ""⟩, false⟩) ∧
      (∀ v, jsonStringField node "value" = some v →
        UpdateForNode node = Except.ok ⟨⟨ci, mi, k, v⟩, true⟩) := by
  intro node ci mi k hci hmi hk
  constructor
  · intro hv
    simp [UpdateForNode, hci, hmi, hk, hv]
  · intro v hv
    simp [UpdateForNode, hci, hmi, hk, hv]

/-- Witness for C6: a node without 'value' yields a tombstone update, one
with 'value' an exists=true update, on concrete nodes. -/
theorem updateForNode_exists_flag_witness :
    UpdateForNode (Json.jobj [("createdIndex", Json.jint 4),
        ("modifiedIndex", Json.jint 9), ("key", Json.jstr "/w")]) =
      Except.ok ⟨⟨4, 9, "/w", ""⟩, false⟩ ∧
    UpdateForNode (Json.jobj [("createdIndex", Json.jint 4),
        ("modifiedIndex", Json.jint 9), ("key", Json.jstr "/w"),
        ("value", Json.jstr "x")]) =
      Except.ok ⟨⟨4, 9, "/w", "x"⟩, true⟩ :=
  ⟨(updateForNode_exists_flag
      (Json.jobj [("createdIndex", Json.jint 4),
        ("modifiedIndex", Json.jint 9), ("key", Json.jstr "/w")])
      4 9 "/w" rfl rfl rfl).1 rfl,
   (updateForNode_exists_flag
      (Json.jobj [("createdIndex", Json.jint 4),
        ("modifiedIndex", Json.jint 9), ("key", Json.jstr "/w"),
        ("value", Json.jstr "x")])
      4 9 "/w" rfl rfl rfl).2 "x" rfl⟩

/-- Claim C7: the Create and CreateInQueue decoders CHECK_EQ that
createdIndex equals modifiedIndex — a successful response where they differ
aborts the process and is never reported as OK — and on equality the
callback receives OK with the assigned index (and, for CreateInQueue, the
generated key). -/
theorem create_asserts_created_eq_modified :
    ∀ (r : GenericResponse) (ts : Status) (node : Json) (ci mi : Int),
      ts.isOk = true →
      jsonObjectField r.json_body "node" = some node →
      jsonIntField node "createdIndex" = some ci →
      jsonIntField node "modifiedIndex" = some mi →
      (ci ≠ mi → CreateRequestDone r ts = CreateOutcome.abort) ∧
      (ci = mi →
        CreateRequestDone r ts = CreateOutcome.callback Status.OK mi) ∧
      (∀ k, jsonStringField node "key" = some k →
        (ci ≠ mi →
          CreateInQueueRequestDone r ts = CreateInQueueOutcome.abort) ∧
        (ci = mi →
          CreateInQueueRequestDone r ts =
            CreateInQueueOutcome.callback Status.OK k mi)) := by
  intro r ts node ci mi hts hn hci hmi
  refine ⟨fun hne => ?_, fun heq => ?_, fun k hk => ⟨fun hne => ?_, fun heq => ?_⟩⟩
  · simp [CreateRequestDone, hts, hn, hci, hmi, hne]
  · simp [CreateRequestDone, hts, hn, hci, hmi, heq]
  · simp [CreateInQueueRequestDone, hts, hn, hci, hmi, hk, hne]
  · simp [CreateInQueueRequestDone, hts, hn, hci, hmi, hk, heq]

/-- Witness for C7: a creation response with createdIndex = modifiedIndex =
5 completes OK with index 5 (and key "/q/5" for CreateInQueue); one with
createdIndex 5 and modifiedIndex 6 aborts. -/
theorem create_asserts_created_eq_modified_witness :
    CreateRequestDone
        ⟨9, Json.jobj [("node", Json.jobj [("createdIndex", Json.jint 5),
          ("modifiedIndex", Json.jint 6), ("key", Json.jstr "/q/5")])]⟩
        Status.OK = CreateOutcome.abort ∧
    CreateInQueueRequestDone
        ⟨9, Json.jobj [("node", Json.jobj [("createdIndex", Json.jint 5),
          ("modifiedIndex", Json.jint 5), ("key", Json.jstr "/q/5")])]⟩
        Status.OK = CreateInQueueOutcome.callback Status.OK "/q/5" 5 :=
  ⟨(create_asserts_created_eq_modified
      ⟨9, Json.jobj [("node", Json.jobj [("createdIndex", Json.jint 5),
        ("modifiedIndex", Json.jint 6), ("key", Json.jstr "/q/5")])]⟩
      Status.OK
      (Json.jobj [("createdIndex", Json.jint 5),
        ("modifiedIndex", Json.jint 6), ("key", Json.jstr "/q/5")])
      5 6 rfl rfl rfl rfl).1 (by decide),
   ((create_asserts_created_eq_modified
      ⟨9, Json.jobj [("node", Json.jobj [("createdIndex", Json.jint 5),
        ("modifiedIndex", Json.jint 5), ("key", Json.jstr "/q/5")])]⟩
      Status.OK
      (Json.jobj [("createdIndex", Json.jint 5),
        ("modifiedIndex", Json.jint 5), ("key", Json.jstr "/q/5")])
      5 5 rfl rfl rfl rfl).2.2 "/q/5" rfl).2 rfl⟩

/-- Counterexample for claim C8: the claim says every Node delivered to a
caller satisfies modified_index >= created_index, but the client performs
no such validation: a Get response whose node carries createdIndex 7 and
modifiedIndex 5 is delivered with status OK and an unordered node. -/
theorem get_unordered_node_counterexample :
    (GetRequestDone
        ⟨42, Json.jobj [("node", Json.jobj [("createdIndex", Json.jint 7),
          ("modifiedIndex", Json.jint 5), ("key", Json.jstr "/k"),
          ("value", Json.jstr "v")])]⟩ Status.OK).status = Status.OK ∧
    ¬ ((GetRequestDone
        ⟨42, Json.jobj [("node", Json.jobj [("createdIndex", Json.jint 7),
          ("modifiedIndex", Json.jint 5), ("key", Json.jstr "/k"),
          ("value", Json.jstr "v")])]⟩ Status.OK).node.created_index ≤
       (GetRequestDone
        ⟨42, Json.jobj [("node", Json.jobj [("createdIndex", Json.jint 7),
          ("modifiedIndex", Json.jint 5), ("key", Json.jstr "/k"),
          ("value", Json.jstr "v")])]⟩ Status.OK).node.modified_index) := by
  decide

/-- Claim C8 as amended: the client passes the store's indices through
without validation, so every node delivered by Get, by GetAll, or by a
watch update (UpdateForNode) satisfies modified_index >= created_index
provided the response body satisfies the store-contract invariant
(bodyNodesOrdered); the invariant is not enforced by the code itself. -/
theorem delivered_nodes_ordered :
    ∀ (r : GenericResponse) (ts : Status),
      bodyNodesOrdered r.json_body = true →
      ((GetRequestDone r ts).node.created_index ≤
        (GetRequestDone r ts).node.modified_index) ∧
      (∀ c ∈ GetAllRequestDone r ts, ∀ n ∈ c.nodes,
        n.created_index ≤ n.modified_index) ∧
      (∀ node u, jsonObjectField r.json_body "node" = some node →
        UpdateForNode node = Except.ok u →
        u.node.created_index ≤ u.node.modified_index) := by
  intro r ts hord
  refine ⟨?_, ?_, ?_⟩
  · by_cases hts : ts.isOk
    · cases hn : jsonObjectField r.json_body "node" with
      | none => simp [GetRequestDone, hts, hn, Node.InvalidNode]
      | some node =>
        simp only [bodyNodesOrdered, hn, Bool.and_eq_true] at hord
        obtain ⟨hno, -⟩ := hord
        cases hci : jsonIntField node "createdIndex" with
        | none => simp [GetRequestDone, hts, hn, hci, Node.InvalidNode]
        | some ci =>
          cases hmi : jsonIntField node "modifiedIndex" with
          | none => simp [GetRequestDone, hts, hn, hci, hmi, Node.InvalidNode]
          | some mi =>
            have hle : ci ≤ mi := by
              simp only [jsonNodeOrdered, hci, hmi] at hno
              exact of_decide_eq_true hno
            cases hk : jsonStringField node "key" with
            | none =>
              simp [GetRequestDone, hts, hn, hci, hmi, hk, Node.InvalidNode]
            | some k =>
              cases hv : jsonStringField node "value" with
              | none =>
                simp [GetRequestDone, hts, hn, hci, hmi, hk, hv,
                  Node.InvalidNode]
              | some v =>
                simp [GetRequestDone, hts, hn, hci, hmi, hk, hv, hle]
    · simp [GetRequestDone, hts, Node.InvalidNode]
  · intro c hc n hn
    rcases getAll_call_nodes r ts c hc with hnil | ⟨node, es, hnode, hes, hdec⟩
    · rw [hnil] at hn
      simp at hn
    · simp only [bodyNodesOrdered, hnode, hes, Bool.and_eq_true] at hord
      obtain ⟨-, hall⟩ := hord
      exact decodeEntries_ordered es 0 c.nodes hall hdec n hn
  · intro node u hnode hu
    simp only [bodyNodesOrdered, hnode, Bool.and_eq_true] at hord
    obtain ⟨hno, -⟩ := hord
    cases hci : jsonIntField node "createdIndex" with
    | none => simp [UpdateForNode, hci] at hu
    | some ci =>
      cases hmi : jsonIntField node "modifiedIndex" with
      | none => simp [UpdateForNode, hci, hmi] at hu
      | some mi =>
        have hle : ci ≤ mi := by
          simp only [jsonNodeOrdered, hci, hmi] at hno
          exact of_decide_eq_true hno
        cases hk : jsonStringField node "key" with
        | none => simp [UpdateForNode, hci, hmi, hk] at hu
        | some k =>
          cases hv : jsonStringField node "value" with
          | none =>
            simp only [UpdateForNode, hci, hmi, hk, hv,
              Except.ok.injEq] at hu
            rw [← hu]
            exact hle
          | some v =>
            simp only [UpdateForNode, hci, hmi, hk, hv,
              Except.ok.injEq] at hu
            rw [← hu]
            exact hle

/-- Witness for C8: on a Get response whose node satisfies the store
invariant (createdIndex 5, modifiedIndex 7), the delivered node is
ordered. -/
theorem delivered_nodes_ordered_witness :
    bodyNodesOrdered (Json.jobj [("node",
        Json.jobj [("createdIndex", Json.jint 5),
          ("modifiedIndex", Json.jint 7), ("key", Json.jstr "/k"),
          ("value", Json.jstr "v")])]) = true ∧
    (GetRequestDone
        ⟨42, Json.jobj [("node", Json.jobj [("createdIndex", Json.jint 5),
          ("modifiedIndex", Json.jint 7), ("key", Json.jstr "/k"),
          ("value", Json.jstr "v")])]⟩ Status.OK).node.created_index ≤
      (GetRequestDone
        ⟨42, Json.jobj [("node", Json.jobj [("createdIndex", Json.jint 5),
          ("modifiedIndex", Json.jint 7), ("key", Json.jstr "/k"),
          ("value", Json.jstr "v")])]⟩ Status.OK).node.modified_index :=
  ⟨by decide,
   (delivered_nodes_ordered
      ⟨42, Json.jobj [("node", Json.jobj [("createdIndex", Json.jint 5),
        ("modifiedIndex", Json.jint 7), ("key", Json.jstr "/k"),
        ("value", Json.jstr "v")])]⟩ Status.OK (by decide)).1⟩

/-- Claim C10: an HTTP 307 response without a "location" header makes
EtcdClient::MaybeUpdateLeader abort through CHECK_NOTNULL rather than
complete the caller's task with an error status; when the header is
present, the redirect path re-runs the request against the new leader. -/
theorem redirect_missing_location_aborts :
    MaybeUpdateLeader 307 none = RedirectOutcome.abort ∧
    (∀ loc, MaybeUpdateLeader 307 (some loc) =
      RedirectOutcome.retryOnNewLeader loc) :=
  ⟨rfl, fun _ => rfl⟩

end Etcd
